import Mathlib

/-!
Verification of the Hindi audio transcription backend (`src/backend/server.py`).

This file gives a shallow embedding of the parts of the backend that the
verified properties talk about:

* the transcription client `transcribe_chunk` (retry loop, backoff sleeps,
  job bookkeeping),
* the chunk coordinator and recording lifecycle (`process_recording`:
  per-chunk settlement counters, gathering, final status aggregation),
* the segmenter `split_audio` (decode with format fallback, fixed
  8-minute windows, 1-second minimum for the last window),
* the submission and query endpoints (`create_recording`,
  `get_recording_chunks`) over the in-memory stores.

Audio buffers are modelled by their length in milliseconds (the code only
ever inspects lengths when segmenting); the external speech service is
modelled by an oracle giving the response of each attempt; concurrency is
modelled by an explicit completion order (a permutation of the chunk
indices) driving the counter updates, while `asyncio.gather` collects the
per-task results in dispatch (index) order, exactly as in the source.
-/

/-- Constant `MAX_RETRIES` from server.py. -/
def MAX_RETRIES : Nat := 3

/-- Constant `CHUNK_DURATION` from server.py: 8 minutes in milliseconds. -/
def CHUNK_DURATION : Nat := 8 * 60 * 1000

/-- Outcome of one HTTP attempt against the speech service, as observed by
`transcribe_chunk`:

* `ok body` : HTTP status 200. `body = none` models a body that raises
  `json.JSONDecodeError`; `body = some t` models a parsed JSON object whose
  optional `text` field is `t` (`t = none` when the field is absent, so that
  `result.get("text", "")` yields the empty string).
* `rateLimited` : HTTP status 429.
* `httpError b` : any other HTTP status, with response body `b`.
* `transportErr m` : an exception raised by the request itself. -/
inductive SvcResponse
  | ok (body : Option (Option String))
  | rateLimited
  | httpError (b : String)
  | transportErr (m : String)
deriving DecidableEq

/-- Status field of a job record in the `jobs` store. -/
inductive JobStatus
  | processing
  | completed
  | failed
deriving DecidableEq

/-- One record of the `jobs` store (`jobs[job_id]` in server.py). -/
structure JobRec where
  status : JobStatus
  transcript : Option String
  error : Option String
deriving DecidableEq

/-- The job record as created at the start of `transcribe_chunk`. -/
def initJob : JobRec := ⟨.processing, none, none⟩

/-- Everything observable about one call of `transcribe_chunk`:
the returned value (`some text` on success, `none` on failure, matching the
Python return of a string or `None`), the final state of the job record,
the sequence of sleeps performed (in seconds, in order), and the number of
network attempts made. -/
structure TranscribeOut where
  result : Option String
  job : JobRec
  sleeps : List Nat
  attempts : Nat
deriving DecidableEq

/-- Python `str.strip()`: drop whitespace characters from both ends of the
string (written over the character list so that it evaluates by
reduction). -/
def pyStrip (s : String) : String :=
  ⟨((s.data.dropWhile Char.isWhitespace).reverse.dropWhile Char.isWhitespace).reverse⟩

/-- The retry loop of `transcribe_chunk` (server.py lines 171-223).
`fuel` is `MAX_RETRIES - retries`; the loop body consumes the response of
attempt number `retries` from the oracle `rs`.  Each branch mirrors the
source: HTTP 200 with parsed body returns the stripped text (empty or not)
with the job marked completed; a parse failure, other HTTP error or
transport exception returns a failed job on the last attempt and otherwise
falls through; HTTP 429 sleeps `2 ^ retries` seconds and falls through.
Falling through increments `retries` and, when another attempt remains,
sleeps the fixed 1 second. Leaving the loop returns `none` with the job
left untouched. -/
def transcribeGo (rs : Nat → SvcResponse) : Nat → Nat → List Nat → Nat → TranscribeOut
  | 0, _, sleeps, attempts => ⟨none, initJob, sleeps, attempts⟩
  | fuel + 1, retries, sleeps, attempts =>
    match rs retries with
    | .ok (some t) =>
      if (pyStrip (t.getD "")).isEmpty then
        ⟨some "", ⟨.completed, some "", none⟩, sleeps, attempts + 1⟩
      else
        ⟨some (pyStrip (t.getD "")), ⟨.completed, some (pyStrip (t.getD "")), none⟩,
          sleeps, attempts + 1⟩
    | .ok none =>
      if retries = MAX_RETRIES - 1 then
        ⟨none, ⟨.failed, none, some "Failed to parse API response"⟩, sleeps, attempts + 1⟩
      else
        transcribeGo rs fuel (retries + 1)
          (if retries + 1 < MAX_RETRIES then sleeps ++ [1] else sleeps) (attempts + 1)
    | .rateLimited =>
      transcribeGo rs fuel (retries + 1)
        (if retries + 1 < MAX_RETRIES then sleeps ++ [2 ^ retries] ++ [1]
         else sleeps ++ [2 ^ retries]) (attempts + 1)
    | .httpError b =>
      if retries = MAX_RETRIES - 1 then
        ⟨none, ⟨.failed, none, some ("API error: " ++ b)⟩, sleeps, attempts + 1⟩
      else
        transcribeGo rs fuel (retries + 1)
          (if retries + 1 < MAX_RETRIES then sleeps ++ [1] else sleeps) (attempts + 1)
    | .transportErr m =>
      if retries = MAX_RETRIES - 1 then
        ⟨none, ⟨.failed, none, some m⟩, sleeps, attempts + 1⟩
      else
        transcribeGo rs fuel (retries + 1)
          (if retries + 1 < MAX_RETRIES then sleeps ++ [1] else sleeps) (attempts + 1)

/-- The transcription client `transcribe_chunk`, driven by the response
oracle `rs` (response of attempt `i` is `rs i`). -/
def transcribe_chunk (rs : Nat → SvcResponse) : TranscribeOut :=
  transcribeGo rs MAX_RETRIES 0 [] 0

/-- Status constants of `RecordingStatus` in server.py. -/
inductive RStatus
  | processing
  | completed
  | failed
deriving DecidableEq

/-- One entry of the `recordings` store.  The `warning` field models the
message string built as f-string interpolation of the failed index list into
the text about some chunks having failed; we keep its payload, the list of
indices, which is what the properties are about. -/
structure RecRecord where
  status : RStatus
  transcript : Option String
  error : Option String
  warning : Option (List Nat)
  chunks_total : Nat
  chunks_processed : Nat
  chunks_failed : Nat
deriving DecidableEq

/-- The recording entry right after `process_recording` reset the counters
(server.py lines 240-245 together with creation at lines 438-450). -/
def initRecord (total : Nat) : RecRecord :=
  ⟨.processing, none, none, none, total, 0, 0⟩

/-- Counter update done by the inner `process_chunk` when one chunk task
settles with transcription outcome `o` (`none` models the Python `None`
failure return): `chunks_processed` is always incremented, `chunks_failed`
exactly when the outcome is a failure. -/
def settle (o : Option String) (st : RecRecord) : RecRecord :=
  { st with
    chunks_processed := st.chunks_processed + 1,
    chunks_failed := st.chunks_failed + (if o.isNone then 1 else 0) }

/-- One entry of the per-recording chunk result list. -/
structure ChunkResult where
  index : Nat
  transcript : Option String
  error : Option String
deriving DecidableEq

/-- The dictionary returned by the inner `process_chunk` for chunk `index`
with transcription outcome `o`. -/
def mkChunkResult (i : Nat) (o : Option String) : ChunkResult :=
  ⟨i, o, if o.isNone then some "Failed to transcribe chunk" else none⟩

/-- The list `chunk_results` produced by `asyncio.gather`: results in task
dispatch order, i.e. ascending chunk index, task `i` carrying outcome
`outcomes[i]`. -/
def gatherResults (outcomes : List (Option String)) : List ChunkResult :=
  (List.range outcomes.length).map (fun i => mkChunkResult i (outcomes.getD i none))

/-- Python truthiness of the optional transcript field, as used by
`if result["transcript"]:` — true exactly for a present, non-empty string. -/
def isTruthy : Option String → Bool
  | none => false
  | some s => !s.isEmpty

/-- The `successful_transcripts` list built by `process_recording`:
transcripts whose field is truthy, in result order. -/
def successfulTranscripts (results : List ChunkResult) : List String :=
  results.filterMap (fun r => if isTruthy r.transcript then r.transcript else none)

/-- The `failed_chunks` list built by `process_recording`: indices of the
results whose transcript field is not truthy, in result order. -/
def failedIndices (results : List ChunkResult) : List Nat :=
  (results.filter (fun r => !isTruthy r.transcript)).map (fun r => r.index)

/-- The final status update of `process_recording` (server.py lines
308-327), applied to the recording state `st` reached after all chunk
settlements. -/
def finalizeRecord (results : List ChunkResult) (total : Nat) (st : RecRecord) : RecRecord :=
  if (successfulTranscripts results).length = total then
    { st with status := .completed,
              transcript := some (String.intercalate " " (successfulTranscripts results)) }
  else if 0 < (successfulTranscripts results).length then
    { st with status := .completed,
              transcript := some (String.intercalate " " (successfulTranscripts results)),
              warning := some (failedIndices results) }
  else
    { st with status := .failed, error := some "All chunks failed to process" }

/-- The whole of `process_recording` for a recording whose chunk tasks have
all settled: `outcomes` gives the transcription outcome of each chunk by
index, `order` is the order in which the concurrent tasks completed (and
hence updated the counters); the results themselves are gathered in
dispatch order. Returns the final recording record. -/
def process_recording (outcomes : List (Option String)) (order : List Nat) : RecRecord :=
  finalizeRecord (gatherResults outcomes) outcomes.length
    (order.foldl (fun st i => settle (outcomes.getD i none) st) (initRecord outcomes.length))

/-- All states of the recording record observable from the event loop
during `process_recording`, in order: the initial state, the state after
each settlement, and the finalized state. -/
def lifecycleStates (outcomes : List (Option String)) (order : List Nat) : List RecRecord :=
  (order.scanl (fun st i => settle (outcomes.getD i none) st) (initRecord outcomes.length))
    ++ [process_recording outcomes order]

/-- The two audio formats the backend understands. -/
inductive AudioFormat
  | wav
  | webm
deriving DecidableEq

/-- The alternate format tried by `split_audio` when decoding with the
declared format fails (server.py line 84). -/
def altFormat : AudioFormat → AudioFormat
  | .webm => .wav
  | .wav => .webm

/-- The decode step of `split_audio`: try the declared format, and on
failure try the alternate format once.  `decode` is the decoding oracle for
the given raw bytes, mapping a format to the decoded audio length in
milliseconds (with `none` for a decoding failure).  Returns the decoded
length (or `none` when both attempts fail) together with the list of
formats attempted, in order. -/
def loadAudio (decode : AudioFormat → Option Nat) (fmt : AudioFormat) :
    Option Nat × List AudioFormat :=
  match decode fmt with
  | some len => (some len, [fmt])
  | none =>
    match decode (altFormat fmt) with
    | some len => (some len, [fmt, altFormat fmt])
    | none => (none, [fmt, altFormat fmt])

/-- Number of window start positions generated by
`range(0, len, CHUNK_DURATION)` for an audio of length `len` ms. -/
def numWindows (len : Nat) : Nat := (len + CHUNK_DURATION - 1) / CHUNK_DURATION

/-- Lengths of the slices `audio[i : i + CHUNK_DURATION]` taken by
`split_audio`, in order. -/
def windowLens (len : Nat) : List Nat :=
  (List.range (numWindows len)).map (fun j => min CHUNK_DURATION (len - j * CHUNK_DURATION))

/-- The post-decode part of `split_audio` on a decoded audio of length
`len` ms: error on empty audio, keep only windows of at least 1000 ms,
error when no window survives.  Chunks are represented by their lengths. -/
def splitDecoded (len : Nat) : Except String (List Nat) :=
  if len = 0 then .error "Empty audio file"
  else
    if ((windowLens len).filter (fun c => 1000 ≤ c)).isEmpty then
      .error "No valid audio chunks found"
    else .ok ((windowLens len).filter (fun c => 1000 ≤ c))

/-- The chunking result described by the specification: the full 8-minute
windows followed by the final shorter window when it is at least 1 second
long. -/
def expectedChunks (len : Nat) : List Nat :=
  List.replicate (len / CHUNK_DURATION) CHUNK_DURATION
    ++ (if 1000 ≤ len % CHUNK_DURATION then [len % CHUNK_DURATION] else [])

/-- The segmenter `split_audio`: decode (with the one-shot format
fallback), then window. -/
def split_audio (decode : AudioFormat → Option Nat) (fmt : AudioFormat) :
    Except String (List Nat) :=
  match (loadAudio decode fmt).1 with
  | none => .error "Failed to process audio file. Please check the format and try again."
  | some len => splitDecoded len

/-- The in-memory stores of server.py (`recordings`, `chunks`, `jobs`),
as association lists keyed by id; insertion is modelled by prepending, so
lookup finds the most recent binding, as a dict assignment would. -/
structure Stores where
  recordings : List (String × RecRecord)
  chunkLists : List (String × List ChunkResult)
  jobs : List (String × JobRec)
deriving DecidableEq

/-- Stores with no entries. -/
def emptyStores : Stores := ⟨[], [], []⟩

/-- A submission to `POST /recordings`: the upload filename, the `source`
form field, the declared content type, the byte length of the uploaded
content, and the decoding oracle for that content. -/
structure SubmitRequest where
  filename : String
  source : String
  content_type : String
  contentLen : Nat
  decode : AudioFormat → Option Nat

/-- Result of an endpoint call: a payload on HTTP 200, or an HTTP error
status with its detail string. -/
inductive ApiResult (α : Type)
  | ok (v : α)
  | err (status : Nat) (detail : String)
deriving DecidableEq

/-- The canned transcript of the synthetic test-mode path. -/
def testTranscript : String :=
  "नमस्ते, यह एक परीक्षण प्रतिलेख है। हम हिंदी ट्रांसक्रिप्शन टूल का परीक्षण कर रहे हैं।"

/-- The recording entry created by the test-mode path (status processing,
one total chunk, nothing processed yet). -/
def testInitRecord : RecRecord := ⟨.processing, none, none, none, 1, 0, 0⟩

/-- The recording entry of the test-mode path after the background test
task ran: completed, canned transcript, one processed chunk. -/
def testDoneRecord : RecRecord :=
  ⟨.completed, some testTranscript, none, none, 1, 1, 0⟩

/-- The body of a successful `POST /recordings` reply (the fields the
properties are about). -/
structure CreateReply where
  recording_id : String
  status : RStatus
  chunks_total : Nat
deriving DecidableEq

/-- Format selection of server.py line 420. -/
def formatOf (ct : String) : AudioFormat :=
  if ct = "audio/wav" ∨ ct = "audio/wave" then .wav else .webm

/-- The `POST /recordings` endpoint `create_recording` (server.py lines
341-469), up to the point where background work is scheduled: test-mode
path, source validation, content-type validation, empty-content check,
segmentation (any segmentation exception becomes a 400 with a generic
detail, per the catch-all at lines 430-435), then creation of the recording
entry.  `newId` stands for the generated UUID. -/
def create_recording (st : Stores) (req : SubmitRequest) (newId : String) :
    ApiResult CreateReply × Stores :=
  if req.filename = "test_recording" then
    (.ok ⟨newId, .processing, 1⟩,
      { st with recordings := (newId, testInitRecord) :: st.recordings })
  else if req.source ≠ "microphone" ∧ req.source ≠ "system" then
    (.err 400 "Invalid audio source. Must be microphone or system", st)
  else if ¬ (req.content_type = "audio/webm" ∨ req.content_type = "audio/wav"
      ∨ req.content_type = "audio/wave") then
    (.err 415 "Unsupported audio format. Please use WAV or WebM format.", st)
  else if req.contentLen = 0 then
    (.err 400 "Empty audio file received", st)
  else
    match split_audio req.decode (formatOf req.content_type) with
    | .error _ => (.err 400 "Failed to process audio file", st)
    | .ok cs =>
      if cs.isEmpty then (.err 400 "Failed to process audio file", st)
      else
        (.ok ⟨newId, .processing, cs.length⟩,
          { st with recordings := (newId, initRecord cs.length) :: st.recordings })

/-- The background task of the test-mode path (`process_test_recording`):
after the simulated delay, set the recording to completed with the canned
transcript and one processed chunk.  It never touches the chunk store. -/
def runTestTask (st : Stores) (id : String) : Stores :=
  { st with recordings := st.recordings.map (fun p =>
      if p.1 = id then
        (p.1, { p.2 with status := .completed, transcript := some testTranscript,
                         chunks_processed := 1 })
      else p) }

/-- The `GET /recordings/{id}/chunks` endpoint: 404 for an unknown
recording id, otherwise the stored chunk list, defaulting to the empty
list when the chunk store has no entry for the id. -/
def get_recording_chunks (st : Stores) (id : String) : ApiResult (List ChunkResult) :=
  match st.recordings.lookup id with
  | none => .err 404 "Recording not found"
  | some _ =>
    match st.chunkLists.lookup id with
    | none => .ok []
    | some l => .ok l

/-! ## Helper lemmas -/

/-- Explicit form of the counter fold performed by the chunk settlements. -/
theorem foldl_settle_eq (outcomes : List (Option String)) :
    ∀ (order : List Nat) (st0 : RecRecord),
      order.foldl (fun st i => settle (outcomes.getD i none) st) st0 =
        { st0 with
          chunks_processed := st0.chunks_processed + order.length,
          chunks_failed := st0.chunks_failed +
            (order.map (fun i => if (outcomes.getD i none).isNone then 1 else 0)).sum } := by
  intro order
  induction order with
  | nil => intro st0; simp
  | cons a l ih =>
    intro st0
    rw [List.foldl_cons, ih]
    simp only [settle, List.length_cons, List.map_cons, List.sum_cons]
    congr 1 <;> omega

/-- Every element of a `scanl` is the fold of a prefix of the input list. -/
theorem mem_scanl_take {α β : Type} (f : β → α → β) :
    ∀ (l : List α) (b x : β), x ∈ l.scanl f b →
      ∃ k, k ≤ l.length ∧ x = (l.take k).foldl f b := by
  intro l
  induction l with
  | nil =>
    intro b x hx
    simp [List.scanl] at hx
    exact ⟨0, by simp, by simp [hx]⟩
  | cons a t ih =>
    intro b x hx
    rw [List.scanl_cons] at hx
    rcases List.mem_cons.mp hx with h | h
    · exact ⟨0, by simp, by simp [h]⟩
    · rcases ih (f b a) x h with ⟨k, hk, hfold⟩
      exact ⟨k + 1, by simpa using hk, by simpa using hfold⟩

/-- Indexed access through `List.range` recovers a `filterMap` over the list. -/
theorem range_filterMap_getD {α β : Type} (d : α) (h : α → Option β) :
    ∀ (l : List α),
      (List.range l.length).filterMap (fun i => h (l.getD i d)) = l.filterMap h := by
  intro l
  induction l with
  | nil => simp
  | cons a t ih =>
    rw [List.length_cons, List.range_succ_eq_map, List.filterMap_cons, List.filterMap_map]
    have hcomp :
        ((fun i => h ((a :: t).getD i d)) ∘ Nat.succ) = fun i => h (t.getD i d) := rfl
    rw [hcomp, ih]
    cases h a <;> simp [List.filterMap_cons]

/-- The successful-transcript list of the gathered results, as a
`filterMap` over the outcomes. -/
theorem succ_gather (outcomes : List (Option String)) :
    successfulTranscripts (gatherResults outcomes) =
      outcomes.filterMap (fun o => if isTruthy o then o else none) := by
  unfold successfulTranscripts gatherResults
  rw [List.filterMap_map]
  exact range_filterMap_getD none (fun o => if isTruthy o then o else none) outcomes

/-- The failed-index list of the gathered results: exactly the indices with
a non-truthy outcome, in ascending order. -/
theorem failed_gather (outcomes : List (Option String)) :
    failedIndices (gatherResults outcomes) =
      (List.range outcomes.length).filter (fun i => !isTruthy (outcomes.getD i none)) := by
  unfold failedIndices gatherResults
  rw [List.filter_map, List.map_map]
  have h1 : ((fun r : ChunkResult => !isTruthy r.transcript) ∘
      fun i => mkChunkResult i (outcomes.getD i none)) =
      fun i => !isTruthy (outcomes.getD i none) := rfl
  have h2 : ((fun r : ChunkResult => r.index) ∘
      fun i => mkChunkResult i (outcomes.getD i none)) = fun i => i := rfl
  rw [h1, h2, List.map_id']

/-- Counting the successes: the `filterMap` keeping truthy outcomes has the
same length as the `filter` by truthiness. -/
theorem filterMap_if_length (l : List (Option String)) :
    (l.filterMap (fun o => if isTruthy o then o else none)).length =
      (l.filter (fun o => isTruthy o)).length := by
  induction l with
  | nil => rfl
  | cons a t ih =>
    rw [List.filterMap_cons, List.filter_cons]
    cases ha : isTruthy a with
    | false => simpa [ha] using ih
    | true =>
      cases a with
      | none => simp [isTruthy] at ha
      | some s => simp [ha, ih]

/-! ## C1 -/

/-- C1: divergence evidence.  The transcription client does return a
successful result with empty text for an HTTP 200 body whose text field is
whitespace (first two conjuncts, including a completed job record), but the
recording-level aggregation then counts such a segment as failed: with
outcomes "hi" and "" the warning lists index 1 while the failed counter
stayed 0, and with only empty-success outcomes the whole recording is
marked failed. -/
theorem c1_empty_transcript_divergence :
    (transcribe_chunk (fun _ => .ok (some "  "))).result = some "" ∧
    (transcribe_chunk (fun _ => .ok (some "  "))).job.status = .completed ∧
    (process_recording [some "hi", some ""] [0, 1]).warning = some [1] ∧
    (process_recording [some "hi", some ""] [0, 1]).chunks_failed = 0 ∧
    (process_recording [some "", some ""] [0, 1]).status = .failed := by
  decide

/-! ## C5 -/

/-- C5: counterexample to the claim as stated.  On a first-attempt 429 the
client makes a second attempt, but the total wait between the two attempts
is the exponential backoff plus the fixed 1-second inter-retry delay, i.e.
2 seconds, not exactly 2 ^ 0 = 1 second. -/
theorem c5_backoff_counterexample :
    (transcribe_chunk (fun i => if i = 0 then .rateLimited else .ok (some "hi"))).attempts
        = 2 ∧
    (transcribe_chunk (fun i => if i = 0 then .rateLimited else .ok (some "hi"))).sleeps
        = [1, 1] ∧
    ¬ ((transcribe_chunk
        (fun i => if i = 0 then .rateLimited else .ok (some "hi"))).sleeps.sum = 2 ^ 0) := by
  decide

/-! ## C9 -/

/-- C9: counterexample.  When every attempt is rate-limited the call
returns a failure, yet the job record is never updated: it is still in
status processing when `transcribe_chunk` returns. -/
theorem c9_job_counterexample :
    (transcribe_chunk (fun _ => .rateLimited)).result = none ∧
    (transcribe_chunk (fun _ => .rateLimited)).job.status = .processing := by
  decide

/-! ## C4 -/

/-- C4: counterexample.  For a one-chunk recording whose chunk fails, the
state reached after the settlement but before finalization has
`chunks_processed = chunks_total` while the status is still processing, so
status processing is not equivalent to `chunks_processed < chunks_total` at
every point of the lifecycle. -/
theorem c4_window_counterexample :
    ((lifecycleStates [none] [0]).getD 1 (initRecord 1)).status = .processing ∧
    ((lifecycleStates [none] [0]).getD 1 (initRecord 1)).chunks_processed =
      ((lifecycleStates [none] [0]).getD 1 (initRecord 1)).chunks_total := by
  decide

/-! ## C7 -/

/-- C7: when decoding with the declared format fails, `split_audio` retries
decoding exactly once, with the alternate of the two supported formats
(wav for webm and webm for wav), and the decode step fails exactly when
both attempts fail. -/
theorem c7_decode_fallback (decode : AudioFormat → Option Nat) (fmt : AudioFormat) :
    ((loadAudio decode fmt).1 = none ↔
      decode fmt = none ∧ decode (altFormat fmt) = none) ∧
    (decode fmt ≠ none → loadAudio decode fmt = (decode fmt, [fmt])) ∧
    (decode fmt = none → (loadAudio decode fmt).2 = [fmt, altFormat fmt] ∧
      (loadAudio decode fmt).1 = decode (altFormat fmt)) ∧
    altFormat .wav = .webm ∧ altFormat .webm = .wav := by
  refine ⟨?_, ?_, ?_, rfl, rfl⟩
  · cases h : decode fmt with
    | some len => simp [loadAudio, h]
    | none =>
      cases h2 : decode (altFormat fmt) with
      | some len => simp [loadAudio, h, h2]
      | none => simp [loadAudio, h, h2]
  · intro h
    cases hd : decode fmt with
    | none => exact absurd hd h
    | some len => simp [loadAudio, hd]
  · intro h
    cases h2 : decode (altFormat fmt) with
    | some len => simp [loadAudio, h, h2]
    | none => simp [loadAudio, h, h2]

/-- C7 witness: with a decoder failing on both formats, the decode step of
`split_audio` attempts the declared format webm and then wav, and fails. -/
theorem c7_witness :
    (loadAudio (fun _ => none) AudioFormat.webm).1 = none ∧
    (loadAudio (fun _ => none) AudioFormat.webm).2 =
      [AudioFormat.webm, AudioFormat.wav] := by
  have h := c7_decode_fallback (fun _ => none) AudioFormat.webm
  exact ⟨h.1.mpr ⟨rfl, rfl⟩, ((h.2.2.1) rfl).1⟩

/-- Bounding a sum of zero-or-one indicator values by the list length. -/
theorem sum_indicator_le (l : List Nat) (f : Nat → Nat) (hf : ∀ i, f i ≤ 1) :
    (l.map f).sum ≤ l.length := by
  have h := List.sum_le_card_nsmul (l.map f) 1 (by
    intro x hx
    rcases List.mem_map.mp hx with ⟨i, _, rfl⟩
    exact hf i)
  simpa using h

/-- The final status update never touches the counters. -/
theorem finalize_counters (results : List ChunkResult) (total : Nat) (st : RecRecord) :
    (finalizeRecord results total st).chunks_processed = st.chunks_processed ∧
    (finalizeRecord results total st).chunks_failed = st.chunks_failed ∧
    (finalizeRecord results total st).chunks_total = st.chunks_total := by
  unfold finalizeRecord
  split_ifs <;> exact ⟨rfl, rfl, rfl⟩

/-! ## C2 -/

/-- C2: once all chunk tasks have settled, the final recording state
follows the trichotomy.  Writing S for the number of chunks whose outcome
is a truthy (present and non-empty) transcript — which is how the code
counts `successful_transcripts` — and M for the number of chunks: if S = M
the status is completed with no warning; if 0 < S < M the status is
completed and the warning lists exactly the indices of the failed
(non-truthy) chunks, in ascending order; if S = 0 and M > 0 the status is
failed, with the all-chunks-failed error and no transcript. -/
theorem c2_final_status_trichotomy (outcomes : List (Option String)) (order : List Nat)
    (hperm : order.Perm (List.range outcomes.length)) :
    ((outcomes.filter (fun o => isTruthy o)).length = outcomes.length →
      (process_recording outcomes order).status = .completed ∧
      (process_recording outcomes order).warning = none) ∧
    (0 < (outcomes.filter (fun o => isTruthy o)).length →
      (outcomes.filter (fun o => isTruthy o)).length < outcomes.length →
      (process_recording outcomes order).status = .completed ∧
      (process_recording outcomes order).warning =
        some ((List.range outcomes.length).filter
          (fun i => !isTruthy (outcomes.getD i none)))) ∧
    ((outcomes.filter (fun o => isTruthy o)).length = 0 → 0 < outcomes.length →
      (process_recording outcomes order).status = .failed ∧
      (process_recording outcomes order).error = some "All chunks failed to process" ∧
      (process_recording outcomes order).transcript = none) := by
  have hsl : (successfulTranscripts (gatherResults outcomes)).length =
      (outcomes.filter (fun o => isTruthy o)).length := by
    rw [succ_gather, filterMap_if_length]
  unfold process_recording
  rw [foldl_settle_eq]
  refine ⟨?_, ?_, ?_⟩
  · intro h
    simp only [finalizeRecord]
    rw [if_pos (by rw [hsl]; exact h)]
    exact ⟨rfl, by simp [initRecord]⟩
  · intro h1 h2
    simp only [finalizeRecord]
    rw [if_neg (by rw [hsl]; exact Nat.ne_of_lt h2), if_pos (by rw [hsl]; exact h1)]
    exact ⟨rfl, by rw [failed_gather]⟩
  · intro h0 hM
    simp only [finalizeRecord]
    rw [if_neg (by rw [hsl, h0]; exact Nat.ne_of_lt hM),
      if_neg (by rw [hsl, h0]; exact Nat.lt_irrefl 0)]
    exact ⟨rfl, rfl, by simp [initRecord]⟩

/-- C2 witness: with outcomes "a" (success) and a failure, settled in
completion order 1 then 0, the recording completes with warning listing
exactly index 1. -/
theorem c2_witness :
    ([1, 0] : List Nat).Perm (List.range 2) ∧
    (process_recording [some "a", none] [1, 0]).status = .completed ∧
    (process_recording [some "a", none] [1, 0]).warning = some [1] := by
  have h := c2_final_status_trichotomy [some "a", none] [1, 0] (by decide)
  refine ⟨by decide, (h.2.1 (by decide) (by decide)).1, ?_⟩
  rw [(h.2.1 (by decide) (by decide)).2]
  decide

/-! ## C3 -/

/-- C3: the final recording record does not depend on the completion order
of the chunk tasks, and whenever a transcript is present it is the
space-joined list of the truthy segment transcripts in ascending original
index order (the order of `outcomes`). -/
theorem c3_transcript_scheduling_independent (outcomes : List (Option String))
    (order order' : List Nat)
    (h : order.Perm (List.range outcomes.length))
    (h' : order'.Perm (List.range outcomes.length)) :
    process_recording outcomes order = process_recording outcomes order' ∧
    ((process_recording outcomes order).transcript ≠ none →
      (process_recording outcomes order).transcript =
        some (String.intercalate " "
          (outcomes.filterMap (fun o => if isTruthy o then o else none)))) := by
  have hlen : order.length = order'.length := by
    rw [h.length_eq, h'.length_eq]
  have hsum : (order.map (fun i => if (outcomes.getD i none).isNone then 1 else 0)).sum =
      (order'.map (fun i => if (outcomes.getD i none).isNone then 1 else 0)).sum :=
    ((h.trans h'.symm).map _).sum_eq
  constructor
  · unfold process_recording
    rw [foldl_settle_eq, foldl_settle_eq, hlen, hsum]
  · intro hne
    unfold process_recording at hne ⊢
    rw [foldl_settle_eq] at hne ⊢
    by_cases h1 : (successfulTranscripts (gatherResults outcomes)).length = outcomes.length
    · simp only [finalizeRecord]
      rw [if_pos h1, succ_gather]
    · by_cases h2 : 0 < (successfulTranscripts (gatherResults outcomes)).length
      · simp only [finalizeRecord]
        rw [if_neg h1, if_pos h2, succ_gather]
      · exfalso
        apply hne
        simp only [finalizeRecord]
        rw [if_neg h1, if_neg h2]
        simp [initRecord]

/-- C3 witness: two successful chunks, settled out of order, give the same
record as in-order settlement and the transcript joins the texts in index
order. -/
theorem c3_witness :
    process_recording [some "a", some "b"] [1, 0] =
      process_recording [some "a", some "b"] [0, 1] ∧
    (process_recording [some "a", some "b"] [1, 0]).transcript = some "a b" := by
  have h := c3_transcript_scheduling_independent [some "a", some "b"] [1, 0] [0, 1]
    (by decide) (by decide)
  refine ⟨h.1, ?_⟩
  rw [h.2 (by decide)]
  decide

/-! ## C4 (amended) -/

/-- C4 amended: at every event-loop-observable point of a recording's
lifecycle, `chunks_processed` never exceeds `chunks_total` and
`chunks_failed` never exceeds `chunks_processed`; moreover
`chunks_processed < chunks_total` implies status processing, and a
non-processing status implies `chunks_processed = chunks_total`.  (The
converse equivalence claimed by the specification fails in the state
between the last settlement and finalization, where the counters are full
but the status is still processing — see the counterexample.) -/
theorem c4_lifecycle_invariants (outcomes : List (Option String)) (order : List Nat)
    (hperm : order.Perm (List.range outcomes.length))
    (st : RecRecord) (hst : st ∈ lifecycleStates outcomes order) :
    st.chunks_processed ≤ st.chunks_total ∧
    st.chunks_failed ≤ st.chunks_processed ∧
    (st.chunks_processed < st.chunks_total → st.status = .processing) ∧
    (st.status ≠ .processing → st.chunks_processed = st.chunks_total) := by
  have horder : order.length = outcomes.length := by
    simpa using hperm.length_eq
  have hind : ∀ i, (if (outcomes.getD i none).isNone then 1 else 0) ≤ 1 := by
    intro i
    split <;> omega
  unfold lifecycleStates at hst
  rcases List.mem_append.mp hst with hmem | hmem
  · rcases mem_scanl_take _ order _ st hmem with ⟨k, hk, hfold⟩
    rw [foldl_settle_eq] at hfold
    subst hfold
    have hsum := sum_indicator_le (order.take k)
      (fun i => if (outcomes.getD i none).isNone then 1 else 0) hind
    have htk : (order.take k).length ≤ outcomes.length := by
      rw [List.length_take]
      omega
    refine ⟨?_, ?_, ?_, ?_⟩
    · simpa [initRecord] using htk
    · simpa [initRecord] using hsum
    · intro _
      simp [initRecord]
    · intro hc
      exact absurd (by simp [initRecord]) hc
  · have hst' : st = process_recording outcomes order := by simpa using hmem
    subst hst'
    unfold process_recording
    rw [foldl_settle_eq]
    obtain ⟨hp, hf, ht⟩ := finalize_counters (gatherResults outcomes) outcomes.length
      { initRecord outcomes.length with
        chunks_processed := (initRecord outcomes.length).chunks_processed + order.length,
        chunks_failed := (initRecord outcomes.length).chunks_failed +
          (order.map (fun i => if (outcomes.getD i none).isNone then 1 else 0)).sum }
    rw [hp, hf, ht]
    have hsum := sum_indicator_le order
      (fun i => if (outcomes.getD i none).isNone then 1 else 0) hind
    refine ⟨?_, ?_, ?_, ?_⟩
    · simp [initRecord, horder]
    · simpa [initRecord] using hsum
    · intro hlt
      exfalso
      simp [initRecord, horder] at hlt
    · intro _
      simp [initRecord, horder]

/-- C4 witness: the initial state of a one-chunk recording satisfies the
amended invariants. -/
theorem c4_witness :
    initRecord 1 ∈ lifecycleStates [none] [0] ∧
    ((initRecord 1).chunks_processed ≤ (initRecord 1).chunks_total ∧
     (initRecord 1).chunks_failed ≤ (initRecord 1).chunks_processed ∧
     ((initRecord 1).chunks_processed < (initRecord 1).chunks_total →
       (initRecord 1).status = .processing) ∧
     ((initRecord 1).status ≠ .processing →
       (initRecord 1).chunks_processed = (initRecord 1).chunks_total)) :=
  ⟨by decide, c4_lifecycle_invariants [none] [0] (by decide) (initRecord 1) (by decide)⟩

/-! ## C5 (amended) and C9 (amended): retry-loop lemmas -/

theorem transcribeGo_sleeps_extend (rs : Nat → SvcResponse) :
    ∀ (fuel retries : Nat) (acc : List Nat) (att : Nat),
      ∃ t, (transcribeGo rs fuel retries acc att).sleeps = acc ++ t := by
  intro fuel
  induction fuel with
  | zero =>
    intro retries acc att
    exact ⟨[], by simp [transcribeGo]⟩
  | succ n ih =>
    intro retries acc att
    rcases hr : rs retries with (_ | t0) | _ | b0 | m0 <;>
      simp only [transcribeGo, hr]
    · by_cases h : retries = MAX_RETRIES - 1
      · exact ⟨[], by simp [h]⟩
      · rw [if_neg h]
        have hacc : (if retries + 1 < MAX_RETRIES then acc ++ [1] else acc) =
            acc ++ (if retries + 1 < MAX_RETRIES then [1] else []) := by
          split <;> simp
        rw [hacc]
        rcases ih (retries + 1) (acc ++ (if retries + 1 < MAX_RETRIES then [1] else []))
          (att + 1) with ⟨t, ht⟩
        exact ⟨(if retries + 1 < MAX_RETRIES then [1] else []) ++ t,
          by rw [ht, List.append_assoc]⟩
    · by_cases he : (pyStrip (t0.getD "")).isEmpty
      · exact ⟨[], by simp [he]⟩
      · exact ⟨[], by simp [he]⟩
    · have hacc : (if retries + 1 < MAX_RETRIES then acc ++ [2 ^ retries] ++ [1]
          else acc ++ [2 ^ retries]) =
          acc ++ (if retries + 1 < MAX_RETRIES then [2 ^ retries, 1] else [2 ^ retries]) := by
        split <;> simp
      rw [hacc]
      rcases ih (retries + 1)
        (acc ++ (if retries + 1 < MAX_RETRIES then [2 ^ retries, 1] else [2 ^ retries]))
        (att + 1) with ⟨t, ht⟩
      exact ⟨(if retries + 1 < MAX_RETRIES then [2 ^ retries, 1] else [2 ^ retries]) ++ t,
        by rw [ht, List.append_assoc]⟩
    · by_cases h : retries = MAX_RETRIES - 1
      · exact ⟨[], by simp [h]⟩
      · rw [if_neg h]
        have hacc : (if retries + 1 < MAX_RETRIES then acc ++ [1] else acc) =
            acc ++ (if retries + 1 < MAX_RETRIES then [1] else []) := by
          split <;> simp
        rw [hacc]
        rcases ih (retries + 1) (acc ++ (if retries + 1 < MAX_RETRIES then [1] else []))
          (att + 1) with ⟨t, ht⟩
        exact ⟨(if retries + 1 < MAX_RETRIES then [1] else []) ++ t,
          by rw [ht, List.append_assoc]⟩
    · by_cases h : retries = MAX_RETRIES - 1
      · exact ⟨[], by simp [h]⟩
      · rw [if_neg h]
        have hacc : (if retries + 1 < MAX_RETRIES then acc ++ [1] else acc) =
            acc ++ (if retries + 1 < MAX_RETRIES then [1] else []) := by
          split <;> simp
        rw [hacc]
        rcases ih (retries + 1) (acc ++ (if retries + 1 < MAX_RETRIES then [1] else []))
          (att + 1) with ⟨t, ht⟩
        exact ⟨(if retries + 1 < MAX_RETRIES then [1] else []) ++ t,
          by rw [ht, List.append_assoc]⟩

theorem transcribeGo_attempts_mono (rs : Nat → SvcResponse) :
    ∀ (fuel retries : Nat) (acc : List Nat) (att : Nat),
      att ≤ (transcribeGo rs fuel retries acc att).attempts := by
  intro fuel
  induction fuel with
  | zero =>
    intro retries acc att
    simp [transcribeGo]
  | succ n ih =>
    intro retries acc att
    rcases hr : rs retries with (_ | t0) | _ | b0 | m0 <;>
      simp only [transcribeGo, hr]
    · by_cases h : retries = MAX_RETRIES - 1
      · simp [h]
      · rw [if_neg h]
        exact le_trans (Nat.le_succ att) (ih (retries + 1) _ (att + 1))
    · by_cases he : (pyStrip (t0.getD "")).isEmpty <;> simp [he]
    · exact le_trans (Nat.le_succ att) (ih (retries + 1) _ (att + 1))
    · by_cases h : retries = MAX_RETRIES - 1
      · simp [h]
      · rw [if_neg h]
        exact le_trans (Nat.le_succ att) (ih (retries + 1) _ (att + 1))
    · by_cases h : retries = MAX_RETRIES - 1
      · simp [h]
      · rw [if_neg h]
        exact le_trans (Nat.le_succ att) (ih (retries + 1) _ (att + 1))

theorem transcribeGo_attempts_lb (rs : Nat → SvcResponse) (fuel retries : Nat)
    (acc : List Nat) (att : Nat) (hf : fuel ≠ 0) :
    att + 1 ≤ (transcribeGo rs fuel retries acc att).attempts := by
  cases fuel with
  | zero => exact absurd rfl hf
  | succ n =>
    rcases hr : rs retries with (_ | t0) | _ | b0 | m0 <;>
      simp only [transcribeGo, hr]
    · by_cases h : retries = MAX_RETRIES - 1
      · simp [h]
      · rw [if_neg h]
        exact transcribeGo_attempts_mono rs n (retries + 1) _ (att + 1)
    · by_cases he : (pyStrip (t0.getD "")).isEmpty <;> simp [he]
    · exact transcribeGo_attempts_mono rs n (retries + 1) _ (att + 1)
    · by_cases h : retries = MAX_RETRIES - 1
      · simp [h]
      · rw [if_neg h]
        exact transcribeGo_attempts_mono rs n (retries + 1) _ (att + 1)
    · by_cases h : retries = MAX_RETRIES - 1
      · simp [h]
      · rw [if_neg h]
        exact transcribeGo_attempts_mono rs n (retries + 1) _ (att + 1)

/-- C5 amended: a 429 response is never a terminal failure — after a
first-attempt 429 the client always makes a second attempt — and before
that next attempt it sleeps the exponential backoff `2 ^ attempt` seconds
followed by the fixed 1-second inter-retry delay (so 2 seconds in total
after attempt 0, not exactly `2 ^ 0`).  Each 429 consumes one attempt of
the retry budget: a segment rate-limited on all `MAX_RETRIES = 3` attempts
makes exactly 3 attempts, sleeps 1, 1, 2, 1, 4 seconds, and ends as a
failure (no text) for that segment. -/
theorem c5_rate_limit_retry (rs rs2 : Nat → SvcResponse)
    (hall : ∀ i, i < MAX_RETRIES → rs i = .rateLimited)
    (h0 : rs2 0 = .rateLimited) :
    transcribe_chunk rs = ⟨none, initJob, [1, 1, 2, 1, 4], 3⟩ ∧
    (transcribe_chunk rs2).sleeps.take 2 = [2 ^ 0, 1] ∧
    2 ≤ (transcribe_chunk rs2).attempts := by
  refine ⟨?_, ?_, ?_⟩
  · have h1 := hall 0 (by decide)
    have h2 := hall 1 (by decide)
    have h3 := hall 2 (by decide)
    simp [transcribe_chunk, transcribeGo, MAX_RETRIES, h1, h2, h3]
  · have e : transcribe_chunk rs2 =
        transcribeGo rs2 (MAX_RETRIES - 1) 1 ([] ++ [2 ^ 0] ++ [1]) 1 := by
      simp [transcribe_chunk, transcribeGo, h0, MAX_RETRIES]
    rcases transcribeGo_sleeps_extend rs2 (MAX_RETRIES - 1) 1 ([] ++ [2 ^ 0] ++ [1]) 1
      with ⟨t, ht⟩
    rw [e, ht]
    simp
  · have e : transcribe_chunk rs2 =
        transcribeGo rs2 (MAX_RETRIES - 1) 1 ([] ++ [2 ^ 0] ++ [1]) 1 := by
      simp [transcribe_chunk, transcribeGo, h0, MAX_RETRIES]
    rw [e]
    exact transcribeGo_attempts_lb rs2 (MAX_RETRIES - 1) 1 _ 1 (by decide)

/-- C5 witness: the all-429 oracle realizes both hypotheses. -/
theorem c5_witness :
    transcribe_chunk (fun _ => SvcResponse.rateLimited) =
      ⟨none, initJob, [1, 1, 2, 1, 4], 3⟩ ∧
    (transcribe_chunk (fun _ => SvcResponse.rateLimited)).sleeps.take 2 = [2 ^ 0, 1] ∧
    2 ≤ (transcribe_chunk (fun _ => SvcResponse.rateLimited)).attempts :=
  c5_rate_limit_retry (fun _ => .rateLimited) (fun _ => .rateLimited)
    (fun _ _ => rfl) rfl

/-- C9 amended: every job record is created with status processing and is
updated at most once by the time its transcription call returns, to a
terminal status matching the outcome — completed with the returned
transcript, or failed with an error and no returned text — except on the
path where the retry budget is exhausted with the final attempt
rate-limited: there the job is left in its created processing state even
though the call returns a failure. -/
theorem c9_job_update_classified (rs : Nat → SvcResponse) :
    ((transcribe_chunk rs).job.status = .completed ∧
      (transcribe_chunk rs).job.error = none ∧
      ∃ t, (transcribe_chunk rs).job.transcript = some t ∧
        (transcribe_chunk rs).result = some t) ∨
    ((transcribe_chunk rs).job.status = .failed ∧
      (transcribe_chunk rs).job.transcript = none ∧
      (transcribe_chunk rs).job.error ≠ none ∧ (transcribe_chunk rs).result = none) ∨
    ((transcribe_chunk rs).job = initJob ∧ (transcribe_chunk rs).result = none ∧
      rs (MAX_RETRIES - 1) = .rateLimited) := by
  rcases h0 : rs 0 with (_ | t0) | _ | b0 | m0 <;>
    rcases h1 : rs 1 with (_ | t1) | _ | b1 | m1 <;>
      rcases h2 : rs 2 with (_ | t2) | _ | b2 | m2 <;>
        simp [transcribe_chunk, transcribeGo, MAX_RETRIES, h0, h1, h2, initJob] <;>
          (try split_ifs <;> simp)

/-! ## C6 -/

/-- Keeping the 1-second filter on full 8-minute windows changes nothing. -/
theorem filter_replicate_keep (n : Nat) :
    (List.replicate n CHUNK_DURATION).filter (fun c => 1000 ≤ c) =
      List.replicate n CHUNK_DURATION := by
  induction n with
  | zero => rfl
  | succ k ih =>
    rw [List.replicate_succ, List.filter_cons]
    simp only [ih]
    norm_num [CHUNK_DURATION]

/-- The window slices of a non-empty audio: full 8-minute windows followed
by the remainder window when the length is not a multiple of 8 minutes. -/
theorem windowLens_eq (len : Nat) (h : 0 < len) :
    windowLens len = List.replicate (len / CHUNK_DURATION) CHUNK_DURATION ++
      (if len % CHUNK_DURATION = 0 then [] else [len % CHUNK_DURATION]) := by
  have hcd : CHUNK_DURATION = 480000 := by norm_num [CHUNK_DURATION]
  have hrepl : (List.range (len / CHUNK_DURATION)).map
      (fun j => min CHUNK_DURATION (len - j * CHUNK_DURATION)) =
      List.replicate (len / CHUNK_DURATION) CHUNK_DURATION := by
    rw [List.eq_replicate_iff]
    constructor
    · simp
    · intro b hb
      rcases List.mem_map.mp hb with ⟨j, hj, rfl⟩
      have hjq : j < len / CHUNK_DURATION := List.mem_range.mp hj
      rw [hcd] at *
      omega
  by_cases hr : len % CHUNK_DURATION = 0
  · have hq : numWindows len = len / CHUNK_DURATION := by
      unfold numWindows
      rw [hcd] at *
      omega
    rw [if_pos hr, List.append_nil]
    unfold windowLens
    rw [hq]
    exact hrepl
  · have hq : numWindows len = len / CHUNK_DURATION + 1 := by
      unfold numWindows
      rw [hcd] at *
      omega
    rw [if_neg hr]
    unfold windowLens
    rw [hq, List.range_succ, List.map_append, hrepl]
    congr 1
    simp only [List.map_cons, List.map_nil]
    congr 1
    rw [hcd] at *
    omega

/-- C6: on a successfully decoded non-empty audio, `split_audio` yields the
full 8-minute windows plus the final shorter window kept exactly when it is
at least 1 second, and fails with the no-valid-segments error exactly when
every window is dropped — which happens exactly for inputs shorter than 1
second; a 17-minute input yields the three segments of 8, 8 and 1
minutes. -/
theorem c6_segmentation (decode : AudioFormat → Option Nat) (fmt : AudioFormat) (len : Nat)
    (hdec : (loadAudio decode fmt).1 = some len) (h : 0 < len) :
    split_audio decode fmt =
      (if (expectedChunks len).isEmpty then Except.error "No valid audio chunks found"
       else Except.ok (expectedChunks len)) ∧
    ((expectedChunks len).isEmpty ↔ len < 1000) ∧
    expectedChunks (17 * 60 * 1000) = [CHUNK_DURATION, CHUNK_DURATION, 60 * 1000] := by
  have hcd : CHUNK_DURATION = 480000 := by norm_num [CHUNK_DURATION]
  have hfe : (windowLens len).filter (fun c => 1000 ≤ c) = expectedChunks len := by
    rw [windowLens_eq len h, List.filter_append, filter_replicate_keep]
    unfold expectedChunks
    congr 1
    by_cases hr : len % CHUNK_DURATION = 0
    · rw [if_pos hr, hr]
      simp
    · rw [if_neg hr, List.filter_cons]
      by_cases h1000 : 1000 ≤ len % CHUNK_DURATION
      · simp [h1000]
      · simp [h1000]
  refine ⟨?_, ?_, ?_⟩
  · have e1 : split_audio decode fmt = splitDecoded len := by
      unfold split_audio
      rw [hdec]
    rw [e1]
    unfold splitDecoded
    rw [if_neg (Nat.pos_iff_ne_zero.mp h), hfe]
  · rw [List.isEmpty_iff]
    unfold expectedChunks
    rw [List.append_eq_nil]
    constructor
    · rintro ⟨h1, h2⟩
      have hq : len / CHUNK_DURATION = 0 := by simpa using h1
      by_cases h1000 : 1000 ≤ len % CHUNK_DURATION
      · rw [if_pos h1000] at h2
        simp at h2
      · rw [hcd] at hq h1000
        omega
    · intro hlt
      have hq : len / CHUNK_DURATION = 0 := by
        rw [hcd]
        omega
      have h1000 : ¬ 1000 ≤ len % CHUNK_DURATION := by
        rw [hcd]
        omega
      rw [hq, if_neg h1000]
      simp
  · decide

/-- C6 witness: a decoder yielding a 17-minute audio realizes the
hypotheses, and the segmenter returns the three expected segments. -/
theorem c6_witness :
    split_audio (fun _ => some (17 * 60 * 1000)) AudioFormat.wav =
      .ok [CHUNK_DURATION, CHUNK_DURATION, 60 * 1000] := by
  have h := c6_segmentation (fun _ => some (17 * 60 * 1000)) AudioFormat.wav
    (17 * 60 * 1000) rfl (by norm_num)
  rw [h.1, h.2.2, if_neg (by decide)]

/-! ## C8 -/

/-- C8: when a submission that passes the input validations fails in
segmentation, `create_recording` returns HTTP 400 (a 4xx) with the generic
detail and leaves the stores exactly as they were: no recording record,
chunk results, or jobs are created. -/
theorem c8_segmentation_error_no_partial_state (st : Stores) (req : SubmitRequest)
    (newId : String)
    (hfile : req.filename ≠ "test_recording")
    (hsrc : req.source = "microphone" ∨ req.source = "system")
    (hct : req.content_type = "audio/webm" ∨ req.content_type = "audio/wav" ∨
      req.content_type = "audio/wave")
    (hlen : req.contentLen ≠ 0)
    (hsplit : ∃ e, split_audio req.decode (formatOf req.content_type) = .error e) :
    create_recording st req newId = (.err 400 "Failed to process audio file", st) := by
  rcases hsplit with ⟨e, he⟩
  unfold create_recording
  rw [if_neg hfile]
  rw [if_neg (by
    rintro ⟨ha, hb⟩
    rcases hsrc with h | h
    · exact ha h
    · exact hb h)]
  rw [if_neg (not_not_intro hct)]
  rw [if_neg hlen]
  rw [he]

/-- C8 witness: a wav submission whose bytes decode under neither format is
rejected with 400 and the stores are untouched. -/
theorem c8_witness :
    create_recording emptyStores
      ⟨"clip.wav", "microphone", "audio/wav", 5, fun _ => none⟩ "rec1" =
      (.err 400 "Failed to process audio file", emptyStores) :=
  c8_segmentation_error_no_partial_state emptyStores
    ⟨"clip.wav", "microphone", "audio/wav", 5, fun _ => none⟩ "rec1"
    (by decide) (Or.inl rfl) (Or.inr (Or.inl rfl)) (by decide) ⟨_, rfl⟩

/-! ## C10 -/

/-- C10: a recording created through the synthetic test-mode path never
gets chunk results: even after the test task has completed the recording
(status completed, canned transcript, one processed chunk), the chunks
endpoint answers HTTP 200 with an empty chunks list, not 404. -/
theorem c10_test_mode_no_chunks (st : Stores) (req : SubmitRequest) (newId : String)
    (hfile : req.filename = "test_recording")
    (hfresh : st.chunkLists.lookup newId = none) :
    get_recording_chunks (runTestTask (create_recording st req newId).2 newId) newId =
      .ok [] ∧
    (runTestTask (create_recording st req newId).2 newId).recordings.lookup newId =
      some testDoneRecord ∧
    (create_recording st req newId).1 = .ok ⟨newId, .processing, 1⟩ := by
  have e : create_recording st req newId =
      (.ok ⟨newId, .processing, 1⟩,
        { st with recordings := (newId, testInitRecord) :: st.recordings }) := by
    unfold create_recording
    rw [if_pos hfile]
  rw [e]
  have e2 : runTestTask
      { st with recordings := (newId, testInitRecord) :: st.recordings } newId =
      { st with recordings := (newId, testDoneRecord) ::
          (st.recordings.map (fun p =>
            if p.1 = newId then
              (p.1, { p.2 with status := .completed, transcript := some testTranscript,
                               chunks_processed := 1 })
            else p)) } := by
    unfold runTestTask
    simp only [List.map_cons]
    simp [testDoneRecord, testInitRecord]
  rw [e2]
  refine ⟨?_, ?_, rfl⟩
  · unfold get_recording_chunks
    simp [List.lookup, hfresh]
  · simp [List.lookup, testDoneRecord]

/-- C10 witness: starting from empty stores, the test-mode submission
followed by its background task leaves the chunks endpoint answering an
empty list. -/
theorem c10_witness :
    get_recording_chunks
      (runTestTask
        (create_recording emptyStores
          ⟨"test_recording", "microphone", "audio/webm", 3, fun _ => none⟩ "t1").2
        "t1") "t1" = .ok [] :=
  (c10_test_mode_no_chunks emptyStores
    ⟨"test_recording", "microphone", "audio/webm", 3, fun _ => none⟩ "t1" rfl rfl).1
